import Mathlib

/-!
Verification development for the floor-planner application core
(`src/app.pyw`): the application loop (`App.run`), its deferred-command
execution (`App.execute_commands`), its frame pacing (`App.cap_frame_rate`),
its load/recovery path (`App.load_from_file`), and the shutdown protocol
(`App.notify_background_thread` / `App.background_updates`).

Shallow embedding conventions:
* External collaborators (Model internals, Controller, View, Loader, the
  concrete Command classes) live outside `app.pyw`; where their behaviour
  matters they are modelled from the specification (a wake/sleep condition
  owned by the Model, a push-style message stack and a `loading` flag on the
  Controller, a Loader that either populates the Model in place or raises,
  polymorphic Commands that act on the Model/View/Controller).
* Python object identity is modelled with an explicit allocator: `CoreState`
  carries `nextId`, every `Model()` construction consumes a fresh id, and a
  `Model` records both its own identity `mid` and the identity of its
  condition object `update_background` (a fresh `Model` owns a fresh
  condition).
* `reassigns` is a ghost counter incremented exactly when `self.model` is
  reassigned (the `except` branch of `load_from_file`); no other code path
  rebinds the model reference.
* Times are rationals (seconds); `time.sleep t` is modelled by returning
  `some t` from `cap_frame_rate`.
-/

/-- A user-visible message: Python pushes one-element string tuples such as
`('Loaded from save file: ' + filename,)`. -/
abbrev Msg := List String

/-- Outcome of constructing `Loader(model, filename)`: on success the Loader
has populated the model in place with `contents`; on failure it raised an
exception (any partial mutation it made is irrelevant because the caller
replaces the model wholesale). -/
inductive LoadOutcome where
  | ok (contents : List Nat)
  | err
deriving DecidableEq, Repr

/-- The external Model object: its identity `mid`, the identity of the
condition object `update_background` it owns, and its domain contents
(abstracted to a list of entity ids). -/
structure Model where
  mid : Nat
  update_background : Nat
  contents : List Nat
deriving DecidableEq, Repr

/-- Python `Model()`: a default-constructed model with empty contents, a
fresh identity and a fresh condition object. -/
def mkModel (fresh : Nat) : Model :=
  { mid := fresh, update_background := fresh, contents := [] }

/-- The external Controller state the core touches: the message stack
(`insert` pushes; most recent first) and the transient `loading` flag. -/
structure Controller where
  message_stack : List Msg
  loading : Bool
deriving DecidableEq, Repr

/-- The part of the App state that Commands and the load path act on:
the model and controller references plus the identity allocator and the
ghost reassignment counter. -/
structure CoreState where
  model : Model
  controller : Controller
  nextId : Nat
  reassigns : Nat
deriving DecidableEq, Repr

/-- Behaviour of the external `Loader(model, filename)` constructor,
supplied as an environment parameter. -/
abbrev LoaderF := Model → String → LoadOutcome

/-- Embedding of `App.load_from_file` (src/app.pyw lines 85-98).
`try: loader = Loader(self.model, filename); message_stack.insert(...)`
`except: message_stack.insert(...); self.model = Model()`.
The blanket `except` makes the Python method total: no exception escapes;
correspondingly this embedding is a total function. -/
def load_from_file (L : LoaderF) (c : CoreState) (filename : String) : CoreState :=
  match L c.model filename with
  | LoadOutcome.ok cs =>
      { c with
        model := { c.model with contents := cs },
        controller := { c.controller with
          message_stack := ["Loaded from save file: " ++ filename] :: c.controller.message_stack } }
  | LoadOutcome.err =>
      { c with
        controller := { c.controller with
          message_stack := ["Error loading save file: " ++ filename] :: c.controller.message_stack },
        model := mkModel c.nextId,
        nextId := c.nextId + 1,
        reassigns := c.reassigns + 1 }

/-- Embedding of `App.cap_frame_rate` (src/app.pyw lines 77-83): given the
measured frame duration in seconds, returns `some t` when the main thread
sleeps for `t` seconds and `none` when it does not sleep. The source
compares against the literal `0.16` and sleeps `0.008`. -/
def cap_frame_rate (frame_duration : ℚ) : Option ℚ :=
  if frame_duration < 16/100 then some (8/1000) else none

/-- C1: if the Loader constructor raises during `load_from_file(filename)`,
exactly one message `('Error loading save file: ' + filename,)` is pushed
onto the Controller's message stack and the App's model is replaced by a
freshly default-constructed Model; the blanket `except` propagates no
exception (the embedding is total by construction). -/
theorem c1_load_failure (L : LoaderF) (c : CoreState) (filename : String)
    (h : L c.model filename = LoadOutcome.err) :
    (load_from_file L c filename).controller.message_stack =
      ["Error loading save file: " ++ filename] :: c.controller.message_stack ∧
    (load_from_file L c filename).model = mkModel c.nextId := by
  simp [load_from_file, h]

/-- Witness for C1 at the concrete failing file `bad.sav`. -/
theorem c1_load_failure_witness :
    ((fun _ _ => LoadOutcome.err : LoaderF) (mkModel 0) "bad.sav" = LoadOutcome.err) ∧
    (load_from_file (fun _ _ => LoadOutcome.err)
        { model := mkModel 0, controller := { message_stack := [], loading := false },
          nextId := 1, reassigns := 0 } "bad.sav").controller.message_stack =
      [["Error loading save file: " ++ "bad.sav"]] ∧
    (load_from_file (fun _ _ => LoadOutcome.err)
        { model := mkModel 0, controller := { message_stack := [], loading := false },
          nextId := 1, reassigns := 0 } "bad.sav").model = mkModel 1 := by
  refine ⟨rfl, ?_⟩
  have h := c1_load_failure (fun _ _ => LoadOutcome.err)
    { model := mkModel 0, controller := { message_stack := [], loading := false },
      nextId := 1, reassigns := 0 } "bad.sav" rfl
  exact h

/-- C2: if the Loader constructor succeeds during `load_from_file(filename)`,
exactly one message `('Loaded from save file: ' + filename,)` is pushed onto
the Controller's message stack and the App's model reference is unchanged:
same model identity and same condition object, with the contents populated
in place by the Loader. -/
theorem c2_load_success (L : LoaderF) (c : CoreState) (filename : String)
    (cs : List Nat) (h : L c.model filename = LoadOutcome.ok cs) :
    (load_from_file L c filename).controller.message_stack =
      ["Loaded from save file: " ++ filename] :: c.controller.message_stack ∧
    (load_from_file L c filename).model.mid = c.model.mid ∧
    (load_from_file L c filename).model.update_background = c.model.update_background ∧
    (load_from_file L c filename).model.contents = cs := by
  simp [load_from_file, h]

/-- Witness for C2 at the concrete file `plan.sav` with loaded contents
`[7]`. -/
theorem c2_load_success_witness :
    ((fun _ _ => LoadOutcome.ok [7] : LoaderF) (mkModel 0) "plan.sav" = LoadOutcome.ok [7]) ∧
    (load_from_file (fun _ _ => LoadOutcome.ok [7])
        { model := mkModel 0, controller := { message_stack := [], loading := false },
          nextId := 1, reassigns := 0 } "plan.sav").controller.message_stack =
      [["Loaded from save file: " ++ "plan.sav"]] ∧
    (load_from_file (fun _ _ => LoadOutcome.ok [7])
        { model := mkModel 0, controller := { message_stack := [], loading := false },
          nextId := 1, reassigns := 0 } "plan.sav").model.mid = 0 ∧
    (load_from_file (fun _ _ => LoadOutcome.ok [7])
        { model := mkModel 0, controller := { message_stack := [], loading := false },
          nextId := 1, reassigns := 0 } "plan.sav").model.update_background = 0 ∧
    (load_from_file (fun _ _ => LoadOutcome.ok [7])
        { model := mkModel 0, controller := { message_stack := [], loading := false },
          nextId := 1, reassigns := 0 } "plan.sav").model.contents = [7] := by
  refine ⟨rfl, ?_⟩
  have h := c2_load_success (fun _ _ => LoadOutcome.ok [7])
    { model := mkModel 0, controller := { message_stack := [], loading := false },
      nextId := 1, reassigns := 0 } "plan.sav" [7] rfl
  exact h

/-- C6: `cap_frame_rate d` sleeps for exactly `0.008` seconds when
`d < 0.16` and does not sleep when `d ≥ 0.16` (these are the literals in
the source: `if frame_duration < 0.16: time.sleep(0.008)`). -/
theorem c6_cap_frame_rate (d : ℚ) :
    (d < 16/100 → cap_frame_rate d = some (8/1000)) ∧
    (16/100 ≤ d → cap_frame_rate d = none) := by
  constructor
  · intro h
    simp [cap_frame_rate, h]
  · intro h
    simp [cap_frame_rate, not_lt.mpr h]

/-- Witness for C6 at the concrete durations `0.1` (sleeps) and `0.5`
(does not sleep). -/
theorem c6_cap_frame_rate_witness :
    cap_frame_rate (1/10) = some (8/1000) ∧ cap_frame_rate (1/2) = none :=
  ⟨(c6_cap_frame_rate (1/10)).1 (by norm_num),
   (c6_cap_frame_rate (1/2)).2 (by norm_num)⟩

/-- C7 failing input: at measured frame duration `0.1` seconds (100 ms,
well above the 16 ms = `0.016` s threshold the claim and the code's own
comment `# 60 fps = ~16 ms per frame` describe), the code nevertheless
sleeps for 8 ms, because the source compares against `0.16` (160 ms)
instead of `0.016`. -/
theorem c7_threshold_bug :
    cap_frame_rate (1/10) = some (8/1000) ∧ ¬ ((1/10 : ℚ) < 16/1000) := by
  constructor
  · norm_num [cap_frame_rate]
  · norm_num

/-- Commands are polymorphic external units of deferred work applied to the
App's Model/View/Controller. Modelled from the spec as a closed tagged
variant (the concrete command classes live in the excluded Controller
collaborator): append an entity to the model, trigger a load from a file
(which may fail and reassign the model), or do nothing. -/
inductive Cmd where
  | appendEntity (n : Nat)
  | loadFile (filename : String)
  | noop
deriving DecidableEq, Repr

/-- Effect of `command.execute(app)` on the core state. -/
def Cmd.exec (L : LoaderF) : Cmd → CoreState → CoreState
  | Cmd.appendEntity n, c =>
      { c with model := { c.model with contents := c.model.contents ++ [n] } }
  | Cmd.loadFile f, c => load_from_file L c f
  | Cmd.noop, c => c

/-- The App state owned by the loop: the core (model, controller,
allocator), the `running` flag, and the pending command queue
`self.commands`. -/
structure AppState where
  core : CoreState
  running : Bool
  commands : List Cmd
deriving DecidableEq, Repr

/-- Embedding of `App.execute_commands` (src/app.pyw lines 69-75):
run every queued command in insertion order, then clear the queue, then
clear the Controller's `loading` flag. -/
def execute_commands (L : LoaderF) (s : AppState) : AppState :=
  let core := s.commands.foldl (fun c cmd => Cmd.exec L cmd c) s.core
  { s with
    core := { core with controller := { core.controller with loading := false } },
    commands := [] }

/-- Result of one `controller.handle_input(model, dims, commands)` call:
the returned continue-running flag, the commands it appended to the queue,
and the in-place mutations it made to the model contents and to its own
controller fields. It receives only the model, the screen dimensions and
the queue, so it cannot rebind `app.model` or touch the allocator. -/
structure InRes where
  keep : Bool
  cmds : List Cmd
  contents : List Nat
  ctrl : Controller

/-- Environment of external behaviours: the Loader and, per frame index,
the Controller's input handling. -/
structure Env where
  loader : LoaderF
  input : Nat → Model → Controller → List Cmd → InRes

/-- Embedding of the input-poll step (src/app.pyw lines 45-46):
`self.running = self.controller.handle_input(model, dims, self.commands)`.
The controller may mutate model contents and its own state and appends
zero or more commands to the queue. -/
def pollStep (env : Env) (i : Nat) (s : AppState) : AppState :=
  let r := env.input i s.core.model s.core.controller s.commands
  { s with
    running := r.keep,
    core := { s.core with
      model := { s.core.model with contents := r.contents },
      controller := r.ctrl },
    commands := s.commands ++ r.cmds }

/-- Events observable in one run: the per-frame steps and the three
shutdown actions `view.exit()`, `notify_all` on a condition object, and
`background_thread.join()`. -/
inductive Ev where
  | poll (i : Nat)
  | render (i : Nat)
  | exec (i : Nat)
  | viewExit
  | notifyAll (cond : Nat)
  | join
deriving DecidableEq, Repr

/-- Whether an event is one of the three per-frame steps (as opposed to a
shutdown action). -/
def isFrameEv : Ev → Bool
  | Ev.poll _ => true
  | Ev.render _ => true
  | Ev.exec _ => true
  | _ => false

/-- One frame of the loop body (src/app.pyw lines 42-51): poll input,
render (`view.update` is side-effect-only and leaves the App state
unchanged), execute commands; `cap_frame_rate` only sleeps and does not
change state. Returns the state after the execute-commands step and the
frame's event trace. -/
def frame (env : Env) (i : Nat) (s : AppState) : AppState × List Ev :=
  (execute_commands env.loader (pollStep env i s), [Ev.poll i, Ev.render i, Ev.exec i])

/-- The `while self.running` loop, fuel-bounded: `none` means the loop was
still running after `fuel` frames; `some (evs, s)` gives the accumulated
frame events and the state at the failed loop-condition check. -/
def loop (env : Env) : Nat → Nat → AppState → Option (List Ev × AppState)
  | 0, _, s => if s.running then none else some ([], s)
  | Nat.succ f, i, s =>
      if s.running then
        match loop env f (i + 1) (frame env i s).1 with
        | none => none
        | some (evs, s2) => some ((frame env i s).2 ++ evs, s2)
      else some ([], s)

/-- States at the start of each executed frame body, with frame indices:
the state immediately before that frame's input-poll step. -/
def entryStates (env : Env) : Nat → Nat → AppState → List (Nat × AppState)
  | 0, _, _ => []
  | Nat.succ f, i, s =>
      if s.running then (i, s) :: entryStates env f (i + 1) (frame env i s).1
      else []

/-- States at each `while self.running` check, including the final check
that fails (or the last reached check when fuel runs out). -/
def headStates (env : Env) : Nat → Nat → AppState → List AppState
  | 0, _, s => [s]
  | Nat.succ f, i, s =>
      if s.running then s :: headStates env f (i + 1) (frame env i s).1
      else [s]

/-- Embedding of `run()` entering the loop: `self.running = True`. The
background thread is started here; the condition object passed to it is
`self.model.update_background` as read at this moment. -/
def startRun (s : AppState) : AppState :=
  { s with running := true }

/-- Result of a terminating `run()` call. `startCond` is the condition
object captured when the background thread was started. -/
structure RunResult where
  final : AppState
  events : List Ev
  ret : Bool
  startCond : Nat
deriving DecidableEq, Repr

/-- Embedding of `App.run` (src/app.pyw lines 30-56): set `running := true`,
start the background thread with the current model's condition, iterate the
loop, then on exit perform `view.exit()`, `notify_background_thread()`
(which notifies `self.model.update_background` as read at shutdown), join
the background thread, and return `True`. -/
def runApp (env : Env) (fuel : Nat) (s0 : AppState) : Option RunResult :=
  let s1 := startRun s0
  match loop env fuel 0 s1 with
  | none => none
  | some (evs, s2) =>
      some { final := s2,
             events := evs ++
               [Ev.viewExit, Ev.notifyAll s2.core.model.update_background, Ev.join],
             ret := true,
             startCond := s1.core.model.update_background }

/-- Embedding of `App.__init__` (src/app.pyw lines 12-28): default
components, `running = False`, empty command queue, then
`if load: self.load_from_file(load)` (Python string truthiness: a load is
attempted exactly when the string is non-empty). -/
def initApp (L : LoaderF) (load : String) : AppState :=
  let s : AppState :=
    { core := { model := mkModel 0,
                controller := { message_stack := [], loading := false },
                nextId := 1, reassigns := 0 },
      running := false, commands := [] }
  if load = "" then s else { s with core := load_from_file L s.core load }

/-- C3: if the queue holds the commands tagged `ids` (in that order) at the
start of `execute_commands`, then each one is executed exactly once, in
insertion order — observed through the entity log each command appends to
the model — and afterwards the queue is empty and the Controller's
`loading` flag is false. -/
theorem c3_execute_commands (L : LoaderF) (s : AppState) (ids : List Nat)
    (h : s.commands = ids.map Cmd.appendEntity) :
    (execute_commands L s).core.model.contents = s.core.model.contents ++ ids ∧
    (execute_commands L s).commands = [] ∧
    (execute_commands L s).core.controller.loading = false := by
  refine ⟨?_, rfl, rfl⟩
  simp only [execute_commands, h]
  clear h
  induction ids generalizing s with
  | nil => simp
  | cons a t ih =>
      simp only [List.map_cons, List.foldl_cons, Cmd.exec]
      have := ih { s with core :=
        { s.core with model := { s.core.model with contents := s.core.model.contents ++ [a] } } }
      simp only at this
      simpa [List.append_assoc] using this

/-- Witness for C3: a concrete queue of three commands `[1, 2, 3]`. -/
theorem c3_execute_commands_witness :
    ({ core := { model := mkModel 0,
                 controller := { message_stack := [], loading := true },
                 nextId := 1, reassigns := 0 },
       running := true,
       commands := [Cmd.appendEntity 1, Cmd.appendEntity 2, Cmd.appendEntity 3] } :
        AppState).commands = ([1, 2, 3] : List Nat).map Cmd.appendEntity ∧
    ((execute_commands (fun _ _ => LoadOutcome.err)
        { core := { model := mkModel 0,
                    controller := { message_stack := [], loading := true },
                    nextId := 1, reassigns := 0 },
          running := true,
          commands := [Cmd.appendEntity 1, Cmd.appendEntity 2, Cmd.appendEntity 3] }).core.model.contents
        = [] ++ [1, 2, 3] ∧
      (execute_commands (fun _ _ => LoadOutcome.err)
        { core := { model := mkModel 0,
                    controller := { message_stack := [], loading := true },
                    nextId := 1, reassigns := 0 },
          running := true,
          commands := [Cmd.appendEntity 1, Cmd.appendEntity 2, Cmd.appendEntity 3] }).commands = [] ∧
      (execute_commands (fun _ _ => LoadOutcome.err)
        { core := { model := mkModel 0,
                    controller := { message_stack := [], loading := true },
                    nextId := 1, reassigns := 0 },
          running := true,
          commands := [Cmd.appendEntity 1, Cmd.appendEntity 2, Cmd.appendEntity 3] }).core.controller.loading = false) :=
  ⟨rfl, c3_execute_commands (fun _ _ => LoadOutcome.err) _ [1, 2, 3] rfl⟩

/-- C9: constructing the App with an empty load string performs no load
attempt at all: the result is independent of the Loader (the Loader is
never constructed), no message is pushed onto the Controller's message
stack, the model is the default-constructed Model, the queue is empty and
`running` is false. -/
theorem c9_empty_load (L L2 : LoaderF) :
    initApp L "" = initApp L2 "" ∧
    (initApp L "").core.controller.message_stack = [] ∧
    (initApp L "").core.model = mkModel 0 ∧
    (initApp L "").commands = [] ∧
    (initApp L "").running = false := by
  refine ⟨rfl, rfl, rfl, rfl, rfl⟩

/-- The state a frame leaves behind (immediately after the execute-commands
step) always has an empty command queue: `self.commands.clear()` runs
unconditionally. -/
theorem frame_commands_empty (env : Env) (i : Nat) (s : AppState) :
    ((frame env i s).1).commands = [] := rfl

/-- Auxiliary induction for C4 over an arbitrary starting frame index:
from a loop-head state with an empty queue, every executed frame starts
with an empty queue and ends (after execute-commands) with an empty
queue. -/
theorem entryStates_queue_empty (env : Env) :
    ∀ (fuel i : Nat) (s : AppState), s.commands = [] →
      ∀ p ∈ entryStates env fuel i s,
        p.2.commands = [] ∧ ((frame env p.1 p.2).1).commands = [] := by
  intro fuel
  induction fuel with
  | zero =>
      intro i s _ p hp
      simp [entryStates] at hp
  | succ f ih =>
      intro i s hs p hp
      by_cases hr : s.running
      · simp only [entryStates, hr, if_pos, List.mem_cons] at hp
        rcases hp with hp | hp
        · subst hp
          exact ⟨hs, frame_commands_empty env i s⟩
        · exact ih (i + 1) (frame env i s).1 (frame_commands_empty env i s) p hp
      · simp [entryStates, hr] at hp

/-- C4: starting from an App state whose queue is empty (as `__init__`
guarantees), in every frame of the main loop the pending-command queue is
empty immediately before the input-poll step (the frame-entry state) and
empty again immediately after the execute-commands step; it can be
non-empty only strictly between those two points of a single frame. -/
theorem c4_queue_empty (env : Env) (fuel : Nat) (s0 : AppState)
    (h : s0.commands = []) :
    ∀ p ∈ entryStates env fuel 0 (startRun s0),
      p.2.commands = [] ∧ ((frame env p.1 p.2).1).commands = [] :=
  entryStates_queue_empty env fuel 0 (startRun s0) h

/-- A loop environment in which the controller mutates nothing, appends no
commands and requests termination on the first poll. -/
def env0 : Env :=
  { loader := fun _ _ => LoadOutcome.err,
    input := fun _ m c _ => { keep := false, cmds := [], contents := m.contents, ctrl := c } }

/-- The App as constructed by `App()` with no file to load. -/
def s0c : AppState := initApp env0.loader ""

/-- Witness for C4: the concrete one-frame run under `env0`. -/
theorem c4_queue_empty_witness :
    s0c.commands = [] ∧
    ((0, startRun s0c).2.commands = [] ∧
      ((frame env0 (0, startRun s0c).1 (0, startRun s0c).2).1).commands = []) :=
  ⟨rfl, c4_queue_empty env0 2 s0c rfl (0, startRun s0c) (by decide)⟩

/-- Whether every adjacent pair `(a, b)` of a Boolean trace satisfies
`a = false → b = false`, i.e. the only transitions along the trace are
`true → false` (never `false → true`). -/
def onlyTrueToFalse : List Bool → Bool
  | a :: b :: t => (a || !b) && onlyTrueToFalse (b :: t)
  | _ => true

/-- The `running` values over the lifetime of one App instance: at
construction (`__init__` sets `running = False`) and then at every
loop-head check of `run()` (which begins by setting `running = True`). -/
def lifeTrace (env : Env) (fuel : Nat) (s0 : AppState) : List Bool :=
  s0.running :: (headStates env fuel 0 (startRun s0)).map (fun s => s.running)

/-- Counterexample to C5 as stated: over the lifetime of the concrete App
`App()` followed by `run()`, the `running` flag makes a `false → true`
transition (it is `False` from `__init__` until `run()` sets it `True`),
so it is not the case that the flag only ever transitions from true to
false. -/
theorem c5_counterexample :
    onlyTrueToFalse (lifeTrace env0 2 s0c) = false := by decide

/-- Every loop-head state except possibly the last has `running = true`
(so along the loop-head trace the flag is monotone `true → false` and
flips at most once). -/
def allButLastRunning : List AppState → Bool
  | s :: b :: t => s.running && allButLastRunning (b :: t)
  | _ => true

/-- The loop-head trace is never empty. -/
theorem headStates_ne_nil (env : Env) (fuel i : Nat) (s : AppState) :
    headStates env fuel i s ≠ [] := by
  cases fuel with
  | zero => simp [headStates]
  | succ f =>
      by_cases hr : s.running <;> simp [headStates, hr]

/-- C5 amended: within one `run()` call, after `running` is set to true,
the flag is monotone — every loop-head check except possibly the final one
sees `running = true`, so the only transition is a single `true → false`
— and no frame body executes after `running` becomes false (every
executed frame begins with `running = true`). The claim as originally
stated fails only because `__init__` sets `running = False` and `run()`
then sets it `True`, a `false → true` transition within the App's
lifetime. -/
theorem c5_amended (env : Env) (fuel i : Nat) (s : AppState) :
    allButLastRunning (headStates env fuel i s) = true ∧
    ∀ p ∈ entryStates env fuel i s, p.2.running = true := by
  induction fuel generalizing i s with
  | zero =>
      refine ⟨rfl, ?_⟩
      intro p hp
      simp [entryStates] at hp
  | succ f ih =>
      by_cases hr : s.running
      · obtain ⟨b, t, hbt⟩ :=
          List.exists_cons_of_ne_nil (headStates_ne_nil env f (i + 1) (frame env i s).1)
        constructor
        · simp only [headStates, hr, if_pos, hbt, allButLastRunning]
          rw [← hbt]
          simp [hr, (ih (i + 1) (frame env i s).1).1]
        · intro p hp
          simp only [entryStates, hr, if_pos, List.mem_cons] at hp
          rcases hp with hp | hp
          · subst hp
            exact hr
          · exact (ih (i + 1) (frame env i s).1).2 p hp
      · constructor
        · simp [headStates, hr, allButLastRunning]
        · intro p hp
          simp [entryStates, hr] at hp

/-- Witness for C5 amended: the concrete one-frame run under `env0`. -/
theorem c5_amended_witness :
    allButLastRunning (headStates env0 2 0 (startRun s0c)) = true ∧
    (0, startRun s0c).2.running = true :=
  ⟨(c5_amended env0 2 0 (startRun s0c)).1,
   (c5_amended env0 2 0 (startRun s0c)).2 (0, startRun s0c) (by decide)⟩

/-- Every event accumulated by the loop itself is a per-frame event: the
loop body never performs `view.exit`, a notify, or a join. -/
theorem loop_events_frame (env : Env) :
    ∀ (fuel i : Nat) (s s2 : AppState) (evs : List Ev),
      loop env fuel i s = some (evs, s2) → ∀ e ∈ evs, isFrameEv e = true := by
  intro fuel
  induction fuel with
  | zero =>
      intro i s s2 evs h e he
      by_cases hr : s.running
      · simp [loop, hr] at h
      · simp only [loop, hr, if_neg, Bool.false_eq_true, not_false_iff,
          Option.some.injEq, Prod.mk.injEq] at h
        rw [← h.1] at he
        simp at he
  | succ f ih =>
      intro i s s2 evs h e he
      by_cases hr : s.running
      · simp only [loop, hr, if_pos] at h
        cases h2 : loop env f (i + 1) (frame env i s).1 with
        | none => rw [h2] at h; simp at h
        | some p =>
            rw [h2] at h
            obtain ⟨evs2, s3⟩ := p
            simp only [Option.some.injEq, Prod.mk.injEq] at h
            rw [← h.1] at he
            simp only [frame, List.mem_append, List.mem_cons, List.not_mem_nil,
              or_false] at he
            rcases he with (he | he | he) | he
            · rw [he]; rfl
            · rw [he]; rfl
            · rw [he]; rfl
            · exact ih (i + 1) (frame env i s).1 s3 evs2 h2 e he
      · simp only [loop, hr, if_neg, Bool.false_eq_true, not_false_iff,
          Option.some.injEq, Prod.mk.injEq] at h
        rw [← h.1] at he
        simp at he

/-- C8: whenever `run()` terminates (`loop` returns within the fuel bound,
i.e. `handle_input` eventually returned false), the run's event trace is
some frame events followed by exactly `view.exit()`, then one notify-all on
the Model's condition, then the background-thread join — in that order,
each exactly once, with the join strictly after the notify — and `run()`
returns true. -/
theorem c8_shutdown_order (env : Env) (fuel : Nat) (s0 : AppState) (r : RunResult)
    (h : runApp env fuel s0 = some r) :
    (∃ pre, (∀ e ∈ pre, isFrameEv e = true) ∧
      r.events = pre ++
        [Ev.viewExit, Ev.notifyAll r.final.core.model.update_background, Ev.join]) ∧
    r.ret = true := by
  cases hl : loop env fuel 0 (startRun s0) with
  | none => simp [runApp, hl] at h
  | some p =>
      obtain ⟨evs, s2⟩ := p
      simp only [runApp, hl, Option.some.injEq] at h
      subst h
      refine ⟨⟨evs, ?_, rfl⟩, rfl⟩
      exact loop_events_frame env fuel 0 (startRun s0) s2 evs hl

/-- Concrete result of the one-frame run of `App()` under `env0`. -/
def cR8 : RunResult :=
  { final := { core := { model := mkModel 0,
                         controller := { message_stack := [], loading := false },
                         nextId := 1, reassigns := 0 },
               running := false, commands := [] },
    events := [Ev.poll 0, Ev.render 0, Ev.exec 0,
               Ev.viewExit, Ev.notifyAll 0, Ev.join],
    ret := true,
    startCond := 0 }

/-- Witness for C8: the concrete one-frame run of `App()` under `env0`. -/
theorem c8_shutdown_order_witness :
    runApp env0 1 s0c = some cR8 ∧
    ((∃ pre, (∀ e ∈ pre, isFrameEv e = true) ∧
      cR8.events = pre ++
        [Ev.viewExit, Ev.notifyAll cR8.final.core.model.update_background, Ev.join]) ∧
      cR8.ret = true) :=
  ⟨by decide, c8_shutdown_order env0 1 s0c cR8 (by decide)⟩

/-- Object-identity invariant of the core state: the current model's
identity was allocated before `nextId`, and the model's condition object is
the one created together with it. -/
def CoreInv (c : CoreState) : Prop :=
  c.model.mid < c.nextId ∧ c.model.update_background = c.model.mid

/-- Relation between a core state and any core state reachable from it:
the invariant still holds, identities grow monotonically, and the model
identity changed exactly when the ghost reassignment counter did. -/
def Reach (c c2 : CoreState) : Prop :=
  CoreInv c2 ∧ c.model.mid ≤ c2.model.mid ∧ c.nextId ≤ c2.nextId ∧
  c.reassigns ≤ c2.reassigns ∧
  (c2.reassigns = c.reassigns ↔ c2.model.mid = c.model.mid)

/-- Reachability is reflexive on invariant states. -/
theorem reach_refl (c : CoreState) (h : CoreInv c) : Reach c c :=
  ⟨h, le_refl _, le_refl _, le_refl _, by simp⟩

/-- Reachability composes. -/
theorem reach_trans {a b c : CoreState} (hab : Reach a b) (hbc : Reach b c) :
    Reach a c := by
  obtain ⟨hb, h1, h2, h3, h4⟩ := hab
  obtain ⟨hc, g1, g2, g3, g4⟩ := hbc
  refine ⟨hc, le_trans h1 g1, le_trans h2 g2, le_trans h3 g3, ?_⟩
  omega

/-- `load_from_file` preserves reachability: the success branch keeps the
model object, and the failure branch installs a strictly fresher one while
bumping the reassignment counter. -/
theorem load_from_file_reach (L : LoaderF) (c : CoreState) (f : String)
    (h : CoreInv c) : Reach c (load_from_file L c f) := by
  obtain ⟨h1, h2⟩ := h
  cases hE : L c.model f with
  | ok cs =>
      simp only [load_from_file, hE]
      exact ⟨⟨h1, h2⟩, le_refl _, le_refl _, le_refl _, by simp⟩
  | err =>
      have hm : (load_from_file L c f).model.mid = c.nextId := by
        simp [load_from_file, hE, mkModel]
      have hu : (load_from_file L c f).model.update_background = c.nextId := by
        simp [load_from_file, hE, mkModel]
      have hn : (load_from_file L c f).nextId = c.nextId + 1 := by
        simp [load_from_file, hE]
      have hra : (load_from_file L c f).reassigns = c.reassigns + 1 := by
        simp [load_from_file, hE]
      refine ⟨⟨?_, ?_⟩, ?_, ?_, ?_, ?_⟩
      · rw [hm, hn]; omega
      · rw [hu, hm]
      · rw [hm]; omega
      · rw [hn]; omega
      · rw [hra]; omega
      · rw [hra, hm]; omega

/-- Executing one command preserves reachability. -/
theorem cmd_exec_reach (L : LoaderF) (cmd : Cmd) (c : CoreState) (h : CoreInv c) :
    Reach c (Cmd.exec L cmd c) := by
  cases cmd with
  | appendEntity n =>
      exact ⟨⟨h.1, h.2⟩, le_refl _, le_refl _, le_refl _, iff_of_true rfl rfl⟩
  | loadFile f => exact load_from_file_reach L c f h
  | noop => exact reach_refl c h

/-- Folding a command list over the core preserves reachability. -/
theorem foldl_exec_reach (L : LoaderF) (l : List Cmd) :
    ∀ c : CoreState, CoreInv c → Reach c (l.foldl (fun c cmd => Cmd.exec L cmd c) c) := by
  induction l with
  | nil => intro c h; exact reach_refl c h
  | cons cmd t ih =>
      intro c h
      have h1 := cmd_exec_reach L cmd c h
      have h2 := ih (Cmd.exec L cmd c) h1.1
      simpa using reach_trans h1 h2

/-- `execute_commands` preserves reachability (it only additionally clears
the queue and the `loading` flag, which `Reach` does not mention). -/
theorem execute_commands_reach (L : LoaderF) (s : AppState) (h : CoreInv s.core) :
    Reach s.core (execute_commands L s).core :=
  foldl_exec_reach L s.commands s.core h

/-- The input-poll step preserves reachability: `handle_input` can mutate
model contents and controller state but cannot rebind the model reference
or touch the allocator. -/
theorem pollStep_reach (env : Env) (i : Nat) (s : AppState) (h : CoreInv s.core) :
    Reach s.core (pollStep env i s).core :=
  ⟨⟨h.1, h.2⟩, le_refl _, le_refl _, le_refl _, iff_of_true rfl rfl⟩

/-- One frame preserves reachability. -/
theorem frame_reach (env : Env) (i : Nat) (s : AppState) (h : CoreInv s.core) :
    Reach s.core ((frame env i s).1).core := by
  have h1 := pollStep_reach env i s h
  have h2 := execute_commands_reach env.loader (pollStep env i s) h1.1
  exact reach_trans h1 h2

/-- The whole loop preserves reachability. -/
theorem loop_reach (env : Env) :
    ∀ (fuel i : Nat) (s s2 : AppState) (evs : List Ev),
      CoreInv s.core → loop env fuel i s = some (evs, s2) → Reach s.core s2.core := by
  intro fuel
  induction fuel with
  | zero =>
      intro i s s2 evs h hl
      by_cases hr : s.running
      · simp [loop, hr] at hl
      · simp only [loop, hr, if_neg, Bool.false_eq_true, not_false_iff,
          Option.some.injEq, Prod.mk.injEq] at hl
        rw [← hl.2]
        exact reach_refl s.core h
  | succ f ih =>
      intro i s s2 evs h hl
      by_cases hr : s.running
      · simp only [loop, hr, if_pos] at hl
        cases h2 : loop env f (i + 1) (frame env i s).1 with
        | none => rw [h2] at hl; simp at hl
        | some p =>
            rw [h2] at hl
            obtain ⟨evs2, s3⟩ := p
            simp only [Option.some.injEq, Prod.mk.injEq] at hl
            have hf := frame_reach env i s h
            have hrest := ih (i + 1) (frame env i s).1 s3 evs2 hf.1 h2
            rw [← hl.2]
            exact reach_trans hf hrest
      · simp only [loop, hr, if_neg, Bool.false_eq_true, not_false_iff,
          Option.some.injEq, Prod.mk.injEq] at hl
        rw [← hl.2]
        exact reach_refl s.core h

/-- C10: for a terminating run from an invariant initial state, the
background thread was started with the condition object read from
`self.model` at run start, shutdown notifies the condition object of the
model current at shutdown, and the two are the same object if and only if
`self.model` was never reassigned between run start and shutdown (the
ghost reassignment counter is unchanged). -/
theorem c10_condition_identity (env : Env) (fuel : Nat) (s0 : AppState)
    (r : RunResult) (hInv : CoreInv s0.core) (h : runApp env fuel s0 = some r) :
    r.startCond = s0.core.model.update_background ∧
    (r.final.core.model.update_background = r.startCond ↔
      r.final.core.reassigns = s0.core.reassigns) := by
  cases hl : loop env fuel 0 (startRun s0) with
  | none => simp [runApp, hl] at h
  | some p =>
      obtain ⟨evs, s2⟩ := p
      simp only [runApp, hl, Option.some.injEq] at h
      subst h
      have hre : Reach s0.core s2.core := loop_reach env fuel 0 (startRun s0) s2 evs hInv hl
      refine ⟨rfl, ?_⟩
      obtain ⟨⟨_, hc2⟩, _, _, _, hiff⟩ := hre
      simp only [startRun, hc2, hInv.2]
      exact ⟨fun hm => hiff.mpr hm, fun hr2 => hiff.mp hr2⟩

/-- A loop environment whose controller queues a single command that loads
the missing file `bad.sav` and requests termination on the first poll. -/
def env2 : Env :=
  { loader := fun _ _ => LoadOutcome.err,
    input := fun _ m c _ =>
      { keep := false, cmds := [Cmd.loadFile "bad.sav"], contents := m.contents, ctrl := c } }

/-- Concrete result of the one-frame run under `env2`: the queued command's
failing load reassigns the model, so shutdown notifies condition `1` while
the background thread waits on condition `0`. -/
def cR10 : RunResult :=
  { final := { core := { model := mkModel 1,
                         controller :=
                           { message_stack := [["Error loading save file: bad.sav"]],
                             loading := false },
                         nextId := 2, reassigns := 1 },
               running := false, commands := [] },
    events := [Ev.poll 0, Ev.render 0, Ev.exec 0,
               Ev.viewExit, Ev.notifyAll 1, Ev.join],
    ret := true,
    startCond := 0 }

/-- Witness for C10: the concrete run under `env2` in which a command's
failing `load_from_file` reassigns the model, so the notified condition
differs from the one the background thread waits on. -/
theorem c10_condition_identity_witness :
    CoreInv s0c.core ∧ runApp env2 1 s0c = some cR10 ∧
    (cR10.startCond = s0c.core.model.update_background ∧
      (cR10.final.core.model.update_background = cR10.startCond ↔
        cR10.final.core.reassigns = s0c.core.reassigns)) :=
  ⟨⟨by decide, rfl⟩, by decide, c10_condition_identity env2 1 s0c cR10 ⟨by decide, rfl⟩ (by decide)⟩
